import Mathlib

set_option linter.unnecessarySeqFocus false

/-!
Verification of the EPUB TOC-to-Markdown extractor
(`src/epub_toc/epub_toc.py` and `extract_chapter.py`).

The tool walks an EPUB navigation tree (a heterogeneous Python list whose
items are `Link` objects, `(Section, children)` 2-tuples, bare `Section`
objects, or anything else, which is skipped), flattens it to `(title, level)`
pairs, and renders a Markdown heading outline.
-/

/-- An item of the EPUB TOC list, as inspected at runtime by `walk_toc`:
* `link t` — an `ebooklib.epub.Link`; its `title` attribute is the string `t`
  (Python truthiness: the empty string is falsy).
* `sectionPair o cs` — a 2-tuple `(Section, children)`; `o` is
  `getattr(section, "title", None)` (`none` models an absent/`None` title).
* `bareSection o` — a bare `Section` object with optional title `o`.
* `other cs` — any item matching none of the three `isinstance` branches
  (e.g. a tuple of another length, or a 2-tuple whose head is not a
  `Section`); `cs` are whatever TOC items may be nested inside it, which
  `walk_toc` never inspects. -/
inductive TocItem : Type
  | link : String → TocItem
  | sectionPair : Option String → List TocItem → TocItem
  | bareSection : Option String → TocItem
  | other : List TocItem → TocItem
deriving Repr

/-- Python's `str.strip()`: remove leading and trailing whitespace
(modelled with `Char.isWhitespace`). -/
def pyStrip (s : String) : String :=
  String.mk (((s.data.dropWhile Char.isWhitespace).reverse.dropWhile
    Char.isWhitespace).reverse)

/-- `walk_toc(toc, level)`: yields `(title, level)` pairs depth-first.
A `Link` contributes its stripped title iff its raw title is truthy
(non-empty); a `(Section, children)` tuple contributes its stripped title iff
`getattr(section, "title", None)` is truthy, then its children are walked at
`level + 1`; a bare `Section` contributes only its own title; any other item
is skipped. The generator's yields are modelled as list concatenation. -/
def walk_toc : List TocItem → Nat → List (String × Nat)
  | [], _ => []
  | TocItem.link t :: rest, level =>
    (if t = "" then [] else [(pyStrip t, level)]) ++ walk_toc rest level
  | TocItem.sectionPair o children :: rest, level =>
    (match o with
      | some t => if t = "" then [] else [(pyStrip t, level)]
      | none => []) ++ (walk_toc children (level + 1) ++ walk_toc rest level)
  | TocItem.bareSection o :: rest, level =>
    (match o with
      | some t => if t = "" then [] else [(pyStrip t, level)]
      | none => []) ++ walk_toc rest level
  | TocItem.other _ :: rest, level => walk_toc rest level

/-- Number of nodes in the tree (recursively) whose raw title is truthy
(present and non-empty before stripping). Nested items of `other` nodes are
counted like any other nodes of the tree. -/
def countTitled : List TocItem → Nat
  | [] => 0
  | TocItem.link t :: rest => (if t = "" then 0 else 1) + countTitled rest
  | TocItem.sectionPair o children :: rest =>
    (match o with | some t => if t = "" then 0 else 1 | none => 0)
      + countTitled children + countTitled rest
  | TocItem.bareSection o :: rest =>
    (match o with | some t => if t = "" then 0 else 1 | none => 0)
      + countTitled rest
  | TocItem.other children :: rest => countTitled children + countTitled rest

/-- The tree is made only of the shapes of the spec's data model
(`Link`, `(Section, children)`, bare `Section`): no `other` item anywhere. -/
def wfToc : List TocItem → Bool
  | [] => true
  | TocItem.link _ :: rest => wfToc rest
  | TocItem.sectionPair _ children :: rest => wfToc children && wfToc rest
  | TocItem.bareSection _ :: rest => wfToc rest
  | TocItem.other _ :: _ => false

/-- Python's `str.title()` on ASCII text: the first letter of each
alphabetic run is uppercased, the following letters lowercased. Feeds only
the auxiliary `titleized_toc` set. -/
def pyTitleAux : Bool → List Char → List Char
  | _, [] => []
  | prevCased, c :: cs =>
    (if c.isAlpha then if prevCased then c.toLower else c.toUpper else c)
      :: pyTitleAux c.isAlpha cs

/-- Python's `str.title()` (see `pyTitleAux`). -/
def pyTitle (s : String) : String := String.mk (pyTitleAux false s.data)

/-- Python `set.add`: a set of strings modelled as a duplicate-free list in
insertion order. -/
def setAdd (s : List String) (x : String) : List String :=
  if x ∈ s then s else s ++ [x]

/-- One Markdown line for one entry: `heading_level = level + 2` hash
marks, then `f"{hashes} {title}"`. -/
def headingLine (title : String) (level : Nat) : String :=
  String.mk (List.replicate (level + 2) '#') ++ " " ++ title

/-- Python's `"\n".join(lines)`. -/
def joinNl : List String → String
  | [] => ""
  | [line] => line
  | line :: rest => line ++ "\n" ++ joinNl rest

/-- The rendering half of `toc_to_markdown`, given the book title and the
entries flattened by `walk_toc`: `md_lines` is the `# title` heading, an
empty line, then one heading line per entry; the loop also accumulates the
`titleized_toc` set of title-cased titles (which nothing reads
afterwards); the lines are joined with `"\n"` and a final `"\n"` appended
(`"\n".join(md_lines) + "\n"`). -/
def toc_render (book_title : String) (entries : List (String × Nat)) : String :=
  let acc := entries.foldl
    (fun acc e => (acc.1 ++ [e], setAdd acc.2 (pyTitle e.1)))
    (([], []) : List (String × Nat) × List String)
  let toc_titles := acc.1
  let md_lines := ("# " ++ book_title) :: "" ::
    toc_titles.map (fun e => headingLine e.1 e.2)
  joinNl md_lines ++ "\n"

/-- Variant of `toc_render` with the `titleized_toc` construction removed
(the shape of the loop in `extract_chapter.py`, plus the title heading). -/
def toc_render_noset (book_title : String) (entries : List (String × Nat)) :
    String :=
  let md_lines := ("# " ++ book_title) :: "" ::
    entries.map (fun e => headingLine e.1 e.2)
  joinNl md_lines ++ "\n"

/-- A `dc:title` metadata entry: `titles[0][0] if isinstance(titles[0],
tuple) else titles[0]` handles both a `(value, attributes)` tuple and a
bare string. -/
inductive MetaTitle : Type
  | pair : String → List (String × String) → MetaTitle
  | bare : String → MetaTitle
deriving Repr

/-- The loaded book, as far as `toc_to_markdown` inspects it: the
`dc:title` entries (`none` models the Dublin Core namespace missing from
`book.metadata`) and the navigation list `book.toc`. -/
structure Book where
  dcTitles : Option (List MetaTitle)
  toc : List TocItem

/-- Book title extraction: `"Untitled"` unless the Dublin Core namespace
is present with a non-empty `title` list, in which case the first entry's
value. -/
def getBookTitle (dcTitles : Option (List MetaTitle)) : String :=
  match dcTitles with
  | none => "Untitled"
  | some [] => "Untitled"
  | some (MetaTitle.pair v _ :: _) => v
  | some (MetaTitle.bare v :: _) => v

/-- The document `toc_to_markdown` writes for a successfully loaded book. -/
def toc_to_markdown_doc (book : Book) : String :=
  toc_render (getBookTitle book.dcTitles) (walk_toc book.toc 0)

/-- A `pathlib.Path`, as far as this program uses it: the directory part
and the final component (the file name). `with_name` replaces the name and
keeps the directory. -/
structure PyPath where
  dir : String
  name : String
deriving DecidableEq, Repr

/-- Split a character list at its last `'.'` (the dot excluded from both
parts); `none` when no dot occurs. -/
def splitLastDot : List Char → Option (List Char × List Char)
  | [] => none
  | c :: cs =>
    match splitLastDot cs with
    | some (a, b) => some (c :: a, b)
    | none => if c = '.' then some ([], cs) else none

/-- `pathlib`'s `PurePath.stem`: the name without its suffix, where the
suffix starts at the last dot position `i` only when `0 < i < len - 1`
(a leading or trailing dot starts no suffix). -/
def pyStem (name : String) : String :=
  match splitLastDot name.data with
  | some (a, b) => if a ≠ [] ∧ b ≠ [] then String.mk a else name
  | none => name

/-- `epub_path.with_name(f"{epub_path.stem} - ToC.md")`: same directory,
derived file name. -/
def outputFile (epub_path : PyPath) : PyPath :=
  { dir := epub_path.dir, name := pyStem epub_path.name ++ " - ToC.md" }

/-- One invocation of `toc_to_markdown`: `epub.read_epub` is its first
statement, so the loader's outcome is taken as a parameter (`Except`
models a raised exception, which nothing catches); the only write,
`output_file.write_text` (create-or-overwrite), happens after a successful
load. Returns the propagated outcome and the list of `(path, content)`
writes performed. -/
def toc_to_markdown_run (epub_path : PyPath) (load : Except String Book) :
    Except String Unit × List (PyPath × String) :=
  match load with
  | Except.error e => (Except.error e, [])
  | Except.ok book =>
    (Except.ok (), [(outputFile epub_path, toc_to_markdown_doc book)])

/-- `walk_toc` processes the items of the TOC list independently, in order. -/
theorem walk_toc_append (xs ys : List TocItem) (level : Nat) :
    walk_toc (xs ++ ys) level = walk_toc xs level ++ walk_toc ys level := by
  induction xs with
  | nil => simp [walk_toc]
  | cons x rest ih =>
    cases x with
    | link t => simp [walk_toc, ih]
    | sectionPair o children => cases o <;> simp [walk_toc, ih]
    | bareSection o => cases o <;> simp [walk_toc, ih]
    | other nested => simp [walk_toc, ih]

/-- C2: a titled section in any context: one entry for the section at the
current depth, then the children's entries at depth + 1, before any later
sibling's entries; sibling order is preserved. -/
theorem walk_toc_section_order (pre post children : List TocItem)
    (t : String) (d : Nat) (h : pyStrip t ≠ "") :
    walk_toc (pre ++ TocItem.sectionPair (some t) children :: post) d =
      walk_toc pre d ++ (pyStrip t, d) ::
        (walk_toc children (d + 1) ++ walk_toc post d) := by
  have ht : t ≠ "" := by
    intro he
    subst he
    exact h rfl
  rw [walk_toc_append]
  simp [walk_toc, ht]

/-- C2 witness: flattening `[A, B]` where `A = Section "Part 1"` with
children `[Ch 1, Ch 2]` yields `[A, A1, A2, B]`. -/
theorem walk_toc_section_order_witness :
    pyStrip "Part 1" ≠ "" ∧
    walk_toc [TocItem.sectionPair (some "Part 1")
        [TocItem.link "Ch 1", TocItem.link "Ch 2"], TocItem.link "B"] 0 =
      [("Part 1", 0), ("Ch 1", 1), ("Ch 2", 1), ("B", 0)] := by
  refine ⟨by decide, ?_⟩
  have h := walk_toc_section_order [] [TocItem.link "B"]
    [TocItem.link "Ch 1", TocItem.link "Ch 2"] "Part 1" 0 (by decide)
  rw [List.nil_append] at h
  rw [h]
  simp [walk_toc]
  decide

/-- C6: a section whose title is missing (`None`) or empty contributes no
entry of its own, but its children are still walked at depth + 1. -/
theorem walk_toc_untitled_section (o : Option String)
    (pre post children : List TocItem) (d : Nat)
    (h : o = none ∨ o = some "") :
    walk_toc (pre ++ TocItem.sectionPair o children :: post) d =
      walk_toc pre d ++ walk_toc children (d + 1) ++ walk_toc post d := by
  rw [walk_toc_append]
  rcases h with h | h <;> subst h <;> simp [walk_toc]

/-- C6 witness: an untitled section between two links: only its children
appear, at depth 1, between the siblings' entries. -/
theorem walk_toc_untitled_section_witness :
    ((none : Option String) = none ∨ (none : Option String) = some "") ∧
    walk_toc [TocItem.link "X",
        TocItem.sectionPair none [TocItem.link "Ch 1", TocItem.link "Ch 2"],
        TocItem.link "Y"] 0 =
      [("X", 0), ("Ch 1", 1), ("Ch 2", 1), ("Y", 0)] := by
  refine ⟨Or.inl rfl, ?_⟩
  have h := walk_toc_untitled_section none [TocItem.link "X"] [TocItem.link "Y"]
    [TocItem.link "Ch 1", TocItem.link "Ch 2"] 0 (Or.inl rfl)
  rw [show [TocItem.link "X"] ++ TocItem.sectionPair none
      [TocItem.link "Ch 1", TocItem.link "Ch 2"] :: [TocItem.link "Y"] =
      [TocItem.link "X", TocItem.sectionPair none
        [TocItem.link "Ch 1", TocItem.link "Ch 2"], TocItem.link "Y"] from rfl] at h
  rw [h]
  simp [walk_toc]
  decide

/-- C10: an item that is not a `Link`, not a `(Section, children)` 2-tuple
and not a bare `Section` is silently skipped: no entry, nested items never
visited, no error. -/
theorem walk_toc_skips_other (pre post nested : List TocItem) (d : Nat) :
    walk_toc (pre ++ TocItem.other nested :: post) d =
      walk_toc pre d ++ walk_toc post d := by
  rw [walk_toc_append]
  simp [walk_toc]

/-- C1 counterexample: a link whose title is the single space `" "` has an
empty stripped title, yet `walk_toc` emits one entry for it (with empty
title): the raw title `" "` is truthy, so the `if item.title:` guard passes
and the stripped title is yielded. So entries whose stripped title is empty
can be emitted, and the emitted count exceeds the number of nodes with a
non-empty stripped title (here 1 vs 0). -/
theorem walk_toc_blank_title_counterexample :
    pyStrip " " = "" ∧ walk_toc [TocItem.link " "] 0 = [("", 0)] ∧
    (walk_toc [TocItem.link " "] 0).length = 1 := by
  refine ⟨by decide, ?_, ?_⟩ <;> simp [walk_toc] <;> decide

/-- C1 (amended): on trees made only of links and sections, `walk_toc` emits
exactly one entry per node whose raw (unstripped) title is present and
non-empty; nodes with an empty or missing raw title are dropped. -/
theorem walk_toc_length_eq_countTitled (toc : List TocItem) (level : Nat)
    (h : wfToc toc = true) :
    (walk_toc toc level).length = countTitled toc := by
  induction toc, level using walk_toc.induct with
  | case1 level => simp [walk_toc, countTitled]
  | case2 t rest level ih =>
    rw [wfToc] at h
    by_cases ht : t = "" <;> simp [walk_toc, countTitled, ht, ih h] <;> omega
  | case3 o children rest level ih1 ih2 =>
    rw [wfToc, Bool.and_eq_true] at h
    cases o with
    | none => simp [walk_toc, countTitled, ih1 h.1, ih2 h.2]
    | some t =>
      by_cases ht : t = "" <;>
        simp [walk_toc, countTitled, ht, ih1 h.1, ih2 h.2, Nat.add_assoc] <;>
        omega
  | case4 o rest level ih =>
    rw [wfToc] at h
    cases o with
    | none => simp [walk_toc, countTitled, ih h]
    | some t => by_cases ht : t = "" <;> simp [walk_toc, countTitled, ht, ih h] <;> omega
  | case5 nested rest level ih =>
    rw [wfToc] at h
    exact absurd h (by simp)

/-- C1 witness: a concrete well-formed tree with two raw-titled nodes out of
four: `walk_toc` emits exactly two entries. -/
theorem walk_toc_length_eq_countTitled_witness :
    wfToc [TocItem.link "A",
      TocItem.sectionPair (some "") [TocItem.link "B"],
      TocItem.bareSection none] = true ∧
    (walk_toc [TocItem.link "A",
      TocItem.sectionPair (some "") [TocItem.link "B"],
      TocItem.bareSection none] 0).length =
    countTitled [TocItem.link "A",
      TocItem.sectionPair (some "") [TocItem.link "B"],
      TocItem.bareSection none] := by
  refine ⟨by simp [wfToc], walk_toc_length_eq_countTitled _ 0 (by simp [wfToc])⟩

/-- The walk of the empty navigation list yields nothing. -/
theorem walk_toc_nil (level : Nat) : walk_toc [] level = [] := by
  simp [walk_toc]

/-- The rendering loop's `toc_titles` accumulator collects exactly the
entries, in order. -/
theorem render_loop_titles (entries : List (String × Nat))
    (acc : List (String × Nat)) (s : List String) :
    (entries.foldl (fun acc e => (acc.1 ++ [e], setAdd acc.2 (pyTitle e.1)))
      (acc, s)).1 = acc ++ entries := by
  induction entries generalizing acc s with
  | nil => simp
  | cons e rest ih => simp [List.foldl_cons, ih]

/-- `joinNl` peels one line off a list of two or more lines. -/
theorem joinNl_cons_cons (a b : String) (rest : List String) :
    joinNl (a :: b :: rest) = a ++ "\n" ++ joinNl (b :: rest) := rfl

/-- `String.join` distributes over `cons`. -/
theorem join_cons_line (a : String) (l : List String) :
    String.join (a :: l) = a ++ String.join l := by
  apply String.ext
  simp [String.data_join, String.data_append]

/-- Joining a non-empty line list with `"\n"` and appending a final `"\n"`
terminates every line with exactly one newline. -/
theorem joinNl_line_terminated (x : String) (rest : List String) :
    joinNl (x :: rest) ++ "\n" =
      x ++ "\n" ++ String.join (rest.map (fun l => l ++ "\n")) := by
  induction rest generalizing x with
  | nil =>
    apply String.ext
    simp [joinNl, String.data_append]
  | cons b bs ih =>
    rw [joinNl_cons_cons, String.append_assoc, ih b, List.map_cons,
      join_cons_line]

/-- C3: the rendered document is `"# " + title + "\n\n"` followed, for each
entry `(title, d)`, by the line of `d + 2` hash marks, one space and the
verbatim title, each line terminated by a single newline. -/
theorem toc_render_format (book_title : String)
    (entries : List (String × Nat)) :
    toc_render book_title entries =
      "# " ++ book_title ++ "\n\n" ++
      String.join (entries.map (fun e =>
        String.mk (List.replicate (e.2 + 2) '#') ++ " " ++ e.1 ++ "\n")) := by
  simp only [toc_render, render_loop_titles, List.nil_append]
  rw [joinNl_cons_cons, String.append_assoc, joinNl_line_terminated]
  have hmap : List.map (fun l => l ++ "\n")
      (List.map (fun e : String × Nat => headingLine e.1 e.2) entries) =
      List.map (fun e : String × Nat =>
        String.mk (List.replicate (e.2 + 2) '#') ++ " " ++ e.1 ++ "\n")
        entries := by
    rw [List.map_map]
    rfl
  rw [hmap]
  apply String.ext
  simp [String.data_append]

/-- C9: removing the construction of the never-read `titleized_toc` set
leaves the rendered document byte-identical; titles are emitted verbatim,
with no case transformation. -/
theorem toc_render_titleized_set_dead (book_title : String)
    (entries : List (String × Nat)) :
    toc_render book_title entries = toc_render_noset book_title entries := by
  simp only [toc_render, toc_render_noset, render_loop_titles,
    List.nil_append]

/-- C7: the sample tree with book title `"Sample"` renders exactly as
specified; the empty-title link contributes nothing. -/
theorem sample_tree_rendering :
    toc_render "Sample" (walk_toc [TocItem.link "Preface",
        TocItem.sectionPair (some "Part 1")
          [TocItem.link "Ch 1", TocItem.link "Ch 2"],
        TocItem.link ""] 0) =
      "# Sample\n\n## Preface\n## Part 1\n### Ch 1\n### Ch 2\n" := by
  have h : walk_toc [TocItem.link "Preface",
      TocItem.sectionPair (some "Part 1")
        [TocItem.link "Ch 1", TocItem.link "Ch 2"],
      TocItem.link ""] 0
      = [("Preface", 0), ("Part 1", 0), ("Ch 1", 1), ("Ch 2", 1)] := by
    simp [walk_toc]
    decide
  rw [h]
  decide

/-- C8: an empty navigation tree with no usable book title (the Dublin
Core namespace absent, or its `title` list empty) renders as exactly
`"# Untitled\n\n"`. -/
theorem empty_tree_untitled :
    toc_to_markdown_doc { dcTitles := none, toc := [] } = "# Untitled\n\n" ∧
    toc_to_markdown_doc { dcTitles := some [], toc := [] } =
      "# Untitled\n\n" := by
  constructor <;> (simp only [toc_to_markdown_doc, walk_toc_nil]; decide)

/-- C4: when loading fails, the exception propagates verbatim (nothing
catches it) and no file at all is written. -/
theorem load_error_no_write (epub_path : PyPath) (e : String) :
    toc_to_markdown_run epub_path (Except.error e) =
      (Except.error e, []) := rfl

/-- A list without dots has no last-dot split. -/
theorem splitLastDot_of_no_dot (cs : List Char) (h : '.' ∉ cs) :
    splitLastDot cs = none := by
  induction cs with
  | nil => rfl
  | cons c rest ih =>
    have hc : c ≠ '.' := fun hc => h (hc ▸ List.mem_cons_self c rest)
    simp [splitLastDot, ih (fun hm => h (List.mem_cons_of_mem c hm)), hc]

/-- Appending `'.'` followed by a dot-free tail puts the last dot at the
junction. -/
theorem splitLastDot_append (a b : List Char) (hb : '.' ∉ b) :
    splitLastDot (a ++ '.' :: b) = some (a, b) := by
  induction a with
  | nil => simp [splitLastDot, splitLastDot_of_no_dot b hb]
  | cons c rest ih => simp [splitLastDot, ih]

/-- `Path.stem` removes exactly the final extension: for a non-empty stem
and a non-empty, dot-free final extension, `stem.ext ↦ stem`. -/
theorem pyStem_strips_final_extension (stem ext : String)
    (hstem : stem ≠ "") (hext : ext ≠ "") (hdot : '.' ∉ ext.data) :
    pyStem (stem ++ "." ++ ext) = stem := by
  have hdata : (stem ++ "." ++ ext).data = stem.data ++ '.' :: ext.data := by
    simp [String.data_append, show ("." : String).data = ['.'] from rfl]
  have h1 : stem.data ≠ [] := fun hd => hstem (String.ext hd)
  have h2 : ext.data ≠ [] := fun hd => hext (String.ext hd)
  rw [pyStem, hdata, splitLastDot_append _ _ hdot]
  simp [h1, h2]

/-- C5: the derived output path keeps the input's directory and names the
file `"<stem> - ToC.md"`, with only the final extension stripped from the
input file name. -/
theorem outputFile_derivation (dir stem ext : String)
    (hstem : stem ≠ "") (hext : ext ≠ "") (hdot : '.' ∉ ext.data) :
    outputFile { dir := dir, name := stem ++ "." ++ ext } =
      { dir := dir, name := stem ++ " - ToC.md" } := by
  rw [outputFile, pyStem_strips_final_extension stem ext hstem hext hdot]

/-- C5 witness: `"Foo Bar.v2.epub"` maps to `"Foo Bar.v2 - ToC.md"` in the
same directory. -/
theorem outputFile_derivation_witness :
    ("Foo Bar.v2" : String) ≠ "" ∧ ("epub" : String) ≠ "" ∧
    '.' ∉ ("epub" : String).data ∧
    outputFile { dir := "/books", name := "Foo Bar.v2.epub" } =
      { dir := "/books", name := "Foo Bar.v2 - ToC.md" } := by
  refine ⟨by decide, by decide, by decide, ?_⟩
  have h := outputFile_derivation "/books" "Foo Bar.v2" "epub"
    (by decide) (by decide) (by decide)
  rw [show ("Foo Bar.v2" : String) ++ "." ++ "epub" = "Foo Bar.v2.epub"
      from rfl,
    show ("Foo Bar.v2" : String) ++ " - ToC.md" = "Foo Bar.v2 - ToC.md"
      from rfl] at h
  exact h
